import Mathlib

set_option autoImplicit false

/-!
Verification of the Mistral protocol-adaptation layer
(`crates/language_models/src/provider/mistral.rs`): the request translator
`into_mistral` and the streaming event mapper `MistralEventMapper`, embedded
shallowly, with theorems for the specified translation and streaming
properties.
-/

/-- JSON value, standing for the external `serde_json::Value` type.  The
translator and mapper treat JSON values opaquely: serialization and parsing
are external-library calls and are passed in as function parameters. -/
inductive Json where
  | null : Json
  | bool (b : Bool) : Json
  | num (n : Int) : Json
  | str (s : String) : Json

/-! ## Vendor-neutral request model (`language_model` crate) -/

/-- Role of a vendor-neutral message. -/
inductive Role where
  | System
  | User
  | Assistant
deriving DecidableEq

/-- Image content; the translator only ever calls `to_base64_url`, modelled
as a field holding that URL. -/
structure LanguageModelImage where
  base64_url : String
deriving DecidableEq

/-- A requested tool invocation (`LanguageModelToolUse` on the request side). -/
structure LanguageModelToolUse where
  id : String
  name : String
  input : Json

/-- Content of a tool result: text or an image. -/
inductive LanguageModelToolResultContent where
  | Text (text : String)
  | Image (image : LanguageModelImage)

/-- A tool result attached to a message. -/
structure LanguageModelToolResult where
  tool_use_id : String
  content : LanguageModelToolResultContent

/-- Vendor-neutral message content part. -/
inductive MessageContent where
  | Text (text : String)
  | Thinking (text : String) (signature : Option String)
  | RedactedThinking (data : String)
  | Image (image : LanguageModelImage)
  | ToolUse (tool_use : LanguageModelToolUse)
  | ToolResult (tool_result : LanguageModelToolResult)

/-- A vendor-neutral message: a role plus ordered content parts. -/
structure LanguageModelMessage where
  role : Role
  content : List MessageContent

/-- Vendor-neutral tool definition. -/
structure LanguageModelRequestTool where
  name : String
  description : String
  input_schema : Json

/-- Vendor-neutral tool-choice policy. -/
inductive LanguageModelToolChoice where
  | Auto
  | Any
  | None
deriving DecidableEq

/-- Vendor-neutral request (the fields `into_mistral` reads). -/
structure LanguageModelRequest where
  messages : List LanguageModelMessage
  temperature : Option Rat
  tools : List LanguageModelRequestTool
  tool_choice : Option LanguageModelToolChoice

/-! ## Provider wire format (`mistral` crate) -/

namespace mistral

/-- Modelled from the spec: a part of a multipart `User` message — text or
an image reference. -/
inductive MessagePart where
  | Text (text : String)
  | ImageUrl (image_url : String)
deriving DecidableEq

/-- Modelled from the spec: `User` message content is either plain text or a
multipart list of text / image-reference items. -/
inductive MessageContent where
  | Plain (content : String)
  | Multipart (content : List MessagePart)
deriving DecidableEq

/-- Modelled from the spec: the empty accumulated content a user turn starts
from (no parts accumulated yet: plain text, empty). -/
def MessageContent.empty : MessageContent := .Plain ""

/-- Modelled from the spec: appending a part to accumulated content folds
every part into a single multipart content value in order; plain text that
was already present is kept as a leading text part. -/
def MessageContent.push_part : MessageContent → MessagePart → MessageContent
  | .Plain content, part =>
    if content.isEmpty then .Multipart [part]
    else .Multipart [.Text content, part]
  | .Multipart content, part => .Multipart (content ++ [part])

/-- Wire tool-call function payload. -/
structure FunctionContent where
  name : String
  arguments : String
deriving DecidableEq

/-- Wire tool-call content. -/
inductive ToolCallContent where
  | Function (function : FunctionContent)
deriving DecidableEq

/-- Wire tool-call record on an `Assistant` message. -/
structure ToolCall where
  id : String
  content : ToolCallContent
deriving DecidableEq

/-- Wire request message. -/
inductive RequestMessage where
  | System (content : String)
  | User (content : MessageContent)
  | Assistant (content : Option String) (tool_calls : List ToolCall)
  | Tool (content : String) (tool_call_id : String)
deriving DecidableEq

/-- Wire tool-choice enum. -/
inductive ToolChoice where
  | Auto
  | Any
  | None
deriving DecidableEq

/-- Wire function definition. -/
structure FunctionDefinition where
  name : String
  description : Option String
  parameters : Option Json

/-- Wire tool definition. -/
inductive ToolDefinition where
  | Function (function : FunctionDefinition)

/-- Wire request. -/
structure Request where
  model : String
  messages : List RequestMessage
  stream : Bool
  max_tokens : Option Nat
  temperature : Option Rat
  response_format : Option Unit
  tool_choice : Option ToolChoice
  parallel_tool_calls : Option Bool
  tools : List ToolDefinition

end mistral

/-! ## Request translation (`into_mistral`) -/

/-- The fixed text substituted for an image-valued tool result. -/
def toolImagePlaceholder : String :=
  "[Tool responded with an image, but Zed doesn\x27t support these in Mistral models yet]"

/-- Content of the `Tool` wire message built for one tool result: the text,
or the fixed placeholder for an image. -/
def toolResultText : LanguageModelToolResult → String
  | { content := .Text text, .. } => text
  | { content := .Image _, .. } => toolImagePlaceholder

/-- One step of the user-turn fold: text / thinking / image parts are pushed
into the accumulated multipart content, redacted thinking and tool-use parts
are dropped, and a tool result immediately pushes a separate `Tool` wire
message. -/
def userContentStep :
    mistral.MessageContent × List mistral.RequestMessage → MessageContent →
    mistral.MessageContent × List mistral.RequestMessage
  | (mc, msgs), .Text text => (mc.push_part (.Text text), msgs)
  | (mc, msgs), .Image image => (mc.push_part (.ImageUrl image.base64_url), msgs)
  | (mc, msgs), .Thinking text _ => (mc.push_part (.Text text), msgs)
  | (mc, msgs), .RedactedThinking _ => (mc, msgs)
  | (mc, msgs), .ToolUse _ => (mc, msgs)
  | (mc, msgs), .ToolResult tool_result =>
    (mc, msgs ++ [.Tool (toolResultText tool_result) tool_result.tool_use_id])

/-- The `matches!(message_content, Plain { content } if content.is_empty())`
guard deciding that no `User` message is emitted. -/
def mistral.MessageContent.isEmptyPlain : mistral.MessageContent → Bool
  | .Plain content => content.isEmpty
  | .Multipart _ => false

/-- Wire messages emitted for one user-role message: the fold over its
content parts, then the accumulated content as a trailing `User` message
unless it is still empty plain text. -/
def userTurn (content : List MessageContent) : List mistral.RequestMessage :=
  let folded := content.foldl userContentStep (mistral.MessageContent.empty, [])
  if folded.1.isEmptyPlain then folded.2 else folded.2 ++ [.User folded.1]

/-- One step of the assistant-role fold over the whole message list built so
far: text / thinking push a fresh `Assistant` message; a tool use appends a
tool-call record to the trailing `Assistant` message when one is open,
otherwise opens a new `Assistant` message with no text; everything else is
dropped. -/
def assistantContentStep (serialize : Json → String)
    (msgs : List mistral.RequestMessage) (content : MessageContent) :
    List mistral.RequestMessage :=
  match content with
  | .Text text => msgs ++ [.Assistant (some text) []]
  | .Thinking text _ => msgs ++ [.Assistant (some text) []]
  | .RedactedThinking _ => msgs
  | .Image _ => msgs
  | .ToolUse tool_use =>
    let tool_call : mistral.ToolCall :=
      { id := tool_use.id
        content := .Function { name := tool_use.name, arguments := serialize tool_use.input } }
    match msgs.getLast? with
    | some (.Assistant content tool_calls) =>
      msgs.dropLast ++ [.Assistant content (tool_calls ++ [tool_call])]
    | _ => msgs ++ [.Assistant none [tool_call]]
  | .ToolResult _ => msgs

/-- One step of the system-role fold: text / thinking each push a distinct
`System` message, everything else is dropped. -/
def systemContentStep (msgs : List mistral.RequestMessage) (content : MessageContent) :
    List mistral.RequestMessage :=
  match content with
  | .Text text => msgs ++ [.System text]
  | .Thinking text _ => msgs ++ [.System text]
  | _ => msgs

/-- Wire messages produced for one vendor-neutral message, appended to the
messages built so far. -/
def messageStep (serialize : Json → String)
    (msgs : List mistral.RequestMessage) (message : LanguageModelMessage) :
    List mistral.RequestMessage :=
  match message.role with
  | .User => msgs ++ userTurn message.content
  | .Assistant => message.content.foldl (assistantContentStep serialize) msgs
  | .System => message.content.foldl systemContentStep msgs

/-- The message sequence before the Tool-then-User repair pass. -/
def preRepairMessages (serialize : Json → String) (request : LanguageModelRequest) :
    List mistral.RequestMessage :=
  request.messages.foldl (messageStep serialize) []

/-- Whether a wire message is a `Tool` message. -/
def isToolMsg : mistral.RequestMessage → Bool
  | .Tool _ _ => true
  | _ => false

/-- Whether a wire message is a `User` message. -/
def isUserMsg : mistral.RequestMessage → Bool
  | .User _ => true
  | _ => false

/-- The placeholder `Assistant` message spliced between a `Tool` message and
a directly following `User` message: whitespace content, no tool calls. -/
def placeholderAssistant : mistral.RequestMessage := .Assistant (some " ") []

/-- The repair pass: walk the sequence; after a `Tool` message whose
successor is a `User` message, splice in the placeholder `Assistant`
message. -/
def fixToolUser : List mistral.RequestMessage → List mistral.RequestMessage
  | [] => []
  | [m] => [m]
  | m :: n :: rest =>
    if isToolMsg m && isUserMsg n then
      m :: placeholderAssistant :: fixToolUser (n :: rest)
    else
      m :: fixToolUser (n :: rest)

/-- Wire tool-choice translation, match arms in source order: `Auto` and
`Any` pass through only with a non-empty tool list; `None` always passes
through; otherwise a non-empty tool list defaults to `Auto` and an empty one
yields no tool choice. -/
def translateToolChoice (tool_choice : Option LanguageModelToolChoice)
    (tools : List LanguageModelRequestTool) : Option mistral.ToolChoice :=
  if tool_choice = some .Auto ∧ tools.isEmpty = false then some .Auto
  else if tool_choice = some .Any ∧ tools.isEmpty = false then some .Any
  else if tool_choice = some .None then some .None
  else if tools.isEmpty = false then some .Auto
  else none

/-- The request translator: vendor-neutral request to Mistral wire request.
`serialize` stands for the external `serde_json::to_string` call used on
assistant tool-use inputs. -/
def into_mistral (serialize : Json → String) (request : LanguageModelRequest)
    (model : String) (max_output_tokens : Option Nat) : mistral.Request :=
  { model := model
    messages := fixToolUser (preRepairMessages serialize request)
    stream := true
    max_tokens := max_output_tokens
    temperature := request.temperature
    response_format := none
    tool_choice := translateToolChoice request.tool_choice request.tools
    parallel_tool_calls := if request.tools.isEmpty = false then some false else none
    tools := request.tools.map fun tool =>
      .Function { name := tool.name, description := some tool.description,
                  parameters := some tool.input_schema } }

/-! ## Streaming wire chunks and vendor-neutral events -/

namespace mistral

/-- Wire function fragment of a tool-call fragment. -/
structure FunctionChunk where
  name : Option String
  arguments : Option String

/-- Wire tool-call fragment inside a stream chunk delta. -/
structure ToolCallChunk where
  index : Nat
  id : Option String
  function : Option FunctionChunk

/-- Wire stream delta: optional text and optional tool-call fragments. -/
structure StreamDelta where
  content : Option String
  tool_calls : Option (List ToolCallChunk)

/-- Wire stream choice: a delta plus an optional finish reason. -/
structure StreamChoice where
  delta : StreamDelta
  finish_reason : Option String

/-- Wire usage totals. -/
structure Usage where
  prompt_tokens : Nat
  completion_tokens : Nat

/-- Wire stream response chunk. -/
structure StreamResponse where
  choices : List StreamChoice
  usage : Option Usage

end mistral

/-! ## Vendor-neutral completion events -/

/-- Stop reason of a stream-stop event. -/
inductive StopReason where
  | EndTurn
  | ToolUse
deriving DecidableEq

/-- Token usage reported by a usage-update event. -/
structure TokenUsage where
  input_tokens : Nat
  output_tokens : Nat
  cache_creation_input_tokens : Nat
  cache_read_input_tokens : Nat
deriving DecidableEq

/-- A complete tool use reported once a finish signal drains the
accumulator. -/
structure LanguageModelToolUseEvent where
  id : String
  name : String
  is_input_complete : Bool
  input : Json
  raw_input : String

/-- Vendor-neutral completion event. -/
inductive LanguageModelCompletionEvent where
  | Text (text : String)
  | UsageUpdate (usage : TokenUsage)
  | ToolUse (tool_use : LanguageModelToolUseEvent)
  | ToolUseJsonParseError (id : String) (tool_name : String)
      (raw_input : String) (json_parse_error : String)
  | Stop (reason : StopReason)

/-- Completion error (the message wrapped from an `anyhow` error). -/
structure LanguageModelCompletionError where
  message : String
deriving DecidableEq

/-- One item of the mapper's output sequence. -/
abbrev MapResult := Except LanguageModelCompletionError LanguageModelCompletionEvent

/-! ## Streaming event mapper (`MistralEventMapper`) -/

/-- Accumulator entry for one tool call observed in the stream. -/
structure RawToolCall where
  id : String
  name : String
  arguments : String
deriving DecidableEq

/-- The default (empty) accumulator entry created on first sight of an
index. -/
def RawToolCall.default : RawToolCall := { id := "", name := "", arguments := "" }

/-- The streaming event mapper state: the accumulator keyed by tool-call
index, modelled as an association list in insertion order (the source uses a
hash map whose iteration order is unspecified). -/
structure MistralEventMapper where
  tool_calls_by_index : List (Nat × RawToolCall)

/-- A fresh mapper with an empty accumulator. -/
def MistralEventMapper.new : MistralEventMapper := { tool_calls_by_index := [] }

/-- Apply one tool-call fragment to an accumulator entry: a present id
overwrites the id, a present function name overwrites the name, present
argument text is appended to the accumulated argument string. -/
def applyFragment (entry : RawToolCall) (tool_call : mistral.ToolCallChunk) : RawToolCall :=
  let entry :=
    match tool_call.id with
    | some tool_id => { entry with id := tool_id }
    | none => entry
  match tool_call.function with
  | some function =>
    let entry :=
      match function.name with
      | some name => { entry with name := name }
      | none => entry
    match function.arguments with
    | some arguments => { entry with arguments := entry.arguments ++ arguments }
    | none => entry
  | none => entry

/-- `entry(index).or_default()` followed by a mutation `f`: update the entry
at `index` in place, or append a freshly defaulted, then mutated, entry. -/
def updateEntry (acc : List (Nat × RawToolCall)) (index : Nat)
    (f : RawToolCall → RawToolCall) : List (Nat × RawToolCall) :=
  if acc.any (fun p => p.1 = index) then
    acc.map (fun p => if p.1 = index then (p.1, f p.2) else p)
  else
    acc ++ [(index, f RawToolCall.default)]

/-- Drain the accumulator on a `tool_calls` finish signal: an entry with an
empty id or name yields an error result; otherwise the accumulated argument
string is parsed (`parse` stands for the external `serde_json` parser) — a
complete tool-use event on success, a non-fatal tool-use-parse-error event
on failure.  The accumulator is emptied. -/
def drainEntry (parse : String → Except String Json) (tool_call : RawToolCall) : MapResult :=
  if tool_call.id.isEmpty || tool_call.name.isEmpty then
    .error { message := "Received incomplete tool call: missing id or name" }
  else
    match parse tool_call.arguments with
    | .ok input =>
      .ok (.ToolUse { id := tool_call.id, name := tool_call.name,
                      is_input_complete := true, input := input,
                      raw_input := tool_call.arguments })
    | .error error =>
      .ok (.ToolUseJsonParseError tool_call.id tool_call.name
            tool_call.arguments error)

def MistralEventMapper.process_tool_calls (parse : String → Except String Json)
    (m : MistralEventMapper) : MistralEventMapper × List MapResult :=
  ({ tool_calls_by_index := [] },
    m.tool_calls_by_index.map fun p => drainEntry parse p.2)

/-- Map one decoded stream chunk to an ordered list of events, updating the
accumulator: no choices is a single error; delta text becomes a text event;
tool-call fragments only mutate the accumulator; usage becomes a
usage-update event; a finish reason emits the stop events, draining the
accumulator on `tool_calls`. -/
def MistralEventMapper.map_event (parse : String → Except String Json)
    (m : MistralEventMapper) (event : mistral.StreamResponse) :
    MistralEventMapper × List MapResult :=
  match event.choices.head? with
  | none => (m, [.error { message := "Response contained no choices" }])
  | some choice =>
    let textEvents : List MapResult :=
      match choice.delta.content with
      | some content => [.ok (.Text content)]
      | none => []
    let m :=
      match choice.delta.tool_calls with
      | some tool_calls =>
        tool_calls.foldl
          (fun m tool_call =>
            { tool_calls_by_index :=
                updateEntry m.tool_calls_by_index tool_call.index
                  (fun entry => applyFragment entry tool_call) })
          m
      | none => m
    let usageEvents : List MapResult :=
      match event.usage with
      | some usage =>
        [.ok (.UsageUpdate { input_tokens := usage.prompt_tokens,
                             output_tokens := usage.completion_tokens,
                             cache_creation_input_tokens := 0,
                             cache_read_input_tokens := 0 })]
      | none => []
    match choice.finish_reason with
    | none => (m, textEvents ++ usageEvents)
    | some reason =>
      if reason = "stop" then
        (m, textEvents ++ usageEvents ++ [.ok (.Stop .EndTurn)])
      else if reason = "tool_calls" then
        let drained := m.process_tool_calls parse
        (drained.1, textEvents ++ usageEvents ++ drained.2 ++ [.ok (.Stop .ToolUse)])
      else
        (m, textEvents ++ usageEvents ++ [.ok (.Stop .EndTurn)])

/-- Map a whole sequence of chunks in arrival order, threading the mapper
state, and concatenate the emitted events (the list-level rendering of
`map_stream`'s flat-map over the chunk stream). -/
def map_stream (parse : String → Except String Json) (m : MistralEventMapper) :
    List mistral.StreamResponse → List MapResult
  | [] => []
  | chunk :: rest =>
    let step := m.map_event parse chunk
    step.2 ++ map_stream parse step.1 rest

/-- A chunk whose single choice carries exactly one tool-call fragment and
nothing else. -/
def fragmentChunk (index : Nat) (id : Option String) (name : Option String)
    (arguments : Option String) : mistral.StreamResponse :=
  { choices := [{ delta := { content := none,
                             tool_calls := some [{ index := index, id := id,
                                                   function := some { name := name,
                                                                      arguments := arguments } }] },
                  finish_reason := none }],
    usage := none }

/-- A chunk whose single choice carries only a finish reason. -/
def finishChunk (reason : String) : mistral.StreamResponse :=
  { choices := [{ delta := { content := none, tool_calls := none },
                  finish_reason := some reason }],
    usage := none }

/-! ## The Tool-then-User repair pass: invariants -/

/-- Pairwise check that no `Tool` message is immediately followed by a
`User` message. -/
def noToolThenUserB : List mistral.RequestMessage → Bool
  | [] => true
  | [_] => true
  | a :: b :: rest => !(isToolMsg a && isUserMsg b) && noToolThenUserB (b :: rest)

theorem fixToolUser_cons (x : mistral.RequestMessage) (xs : List mistral.RequestMessage) :
    ∃ ys, fixToolUser (x :: xs) = x :: ys := by
  cases xs with
  | nil => exact ⟨[], rfl⟩
  | cons n rest =>
    cases hc : isToolMsg x && isUserMsg n with
    | true =>
      exact ⟨placeholderAssistant :: fixToolUser (n :: rest), by simp [fixToolUser, hc]⟩
    | false =>
      exact ⟨fixToolUser (n :: rest), by simp [fixToolUser, hc]⟩

theorem fixToolUser_no_adjacent (l : List mistral.RequestMessage) :
    noToolThenUserB (fixToolUser l) = true := by
  induction l with
  | nil => rfl
  | cons m tail ih =>
    cases tail with
    | nil => rfl
    | cons n rest =>
      obtain ⟨ys, hys⟩ := fixToolUser_cons n rest
      cases hc : isToolMsg m && isUserMsg n with
      | true =>
        rw [show fixToolUser (m :: n :: rest)
              = m :: placeholderAssistant :: fixToolUser (n :: rest) from by
            simp [fixToolUser, hc]]
        rw [hys]
        show (!(isToolMsg m && isUserMsg placeholderAssistant)
          && (!(isToolMsg placeholderAssistant && isUserMsg n)
          && noToolThenUserB (n :: ys))) = true
        rw [← hys, ih]
        simp [placeholderAssistant, isToolMsg, isUserMsg]
      | false =>
        rw [show fixToolUser (m :: n :: rest) = m :: fixToolUser (n :: rest) from by
            simp [fixToolUser, hc]]
        rw [hys]
        show (!(isToolMsg m && isUserMsg n) && noToolThenUserB (n :: ys)) = true
        rw [← hys, ih, hc]
        rfl

theorem fixToolUser_id_of_no_adjacent (l : List mistral.RequestMessage)
    (h : noToolThenUserB l = true) : fixToolUser l = l := by
  induction l with
  | nil => rfl
  | cons m tail ih =>
    cases tail with
    | nil => rfl
    | cons n rest =>
      have h' : (!(isToolMsg m && isUserMsg n) && noToolThenUserB (n :: rest)) = true := h
      rw [Bool.and_eq_true, Bool.not_eq_true'] at h'
      rw [show fixToolUser (m :: n :: rest) = m :: fixToolUser (n :: rest) from by
          simp [fixToolUser, h'.1]]
      rw [ih h'.2]

theorem fixToolUser_insert_infix (xs : List mistral.RequestMessage)
    (t u : mistral.RequestMessage) (ys : List mistral.RequestMessage)
    (ht : isToolMsg t = true) (hu : isUserMsg u = true) :
    [t, placeholderAssistant, u] <:+: fixToolUser (xs ++ t :: u :: ys) := by
  induction xs with
  | nil =>
    obtain ⟨zs, hzs⟩ := fixToolUser_cons u ys
    rw [List.nil_append,
      show fixToolUser (t :: u :: ys) = t :: placeholderAssistant :: fixToolUser (u :: ys) from by
        simp [fixToolUser, ht, hu],
      hzs]
    exact ⟨[], zs, rfl⟩
  | cons x xs ih =>
    rw [List.cons_append]
    cases hxs : xs ++ t :: u :: ys with
    | nil => simp at hxs
    | cons n rest =>
      have ih' : [t, placeholderAssistant, u] <:+: fixToolUser (n :: rest) := hxs ▸ ih
      cases hc : isToolMsg x && isUserMsg n with
      | true =>
        rw [show fixToolUser (x :: n :: rest)
              = x :: placeholderAssistant :: fixToolUser (n :: rest) from by
            simp [fixToolUser, hc]]
        exact List.infix_cons (List.infix_cons ih')
      | false =>
        rw [show fixToolUser (x :: n :: rest) = x :: fixToolUser (n :: rest) from by
            simp [fixToolUser, hc]]
        exact List.infix_cons ih'

/-- C8: the Tool-followed-by-User repair pass is idempotent — on any wire
message sequence, running the repair pass on its own output returns that
output unchanged. -/
theorem claim_C8_repair_idempotent (l : List mistral.RequestMessage) :
    fixToolUser (fixToolUser l) = fixToolUser l :=
  fixToolUser_id_of_no_adjacent _ (fixToolUser_no_adjacent l)

/-- C1: the final message sequence of `into_mistral` never has a `Tool`
message immediately followed by a `User` message; the final sequence is the
repair pass applied to the pre-repair sequence; and whenever the pre-repair
sequence has a `Tool` message directly followed by a `User` message, the
placeholder `Assistant` message (whitespace content, no tool calls) appears
spliced between them in the final sequence. -/
theorem claim_C1_tool_user_invariant (serialize : Json → String)
    (request : LanguageModelRequest) (model : String) (max_output_tokens : Option Nat) :
    noToolThenUserB (into_mistral serialize request model max_output_tokens).messages = true ∧
    (into_mistral serialize request model max_output_tokens).messages
      = fixToolUser (preRepairMessages serialize request) ∧
    ∀ xs t u ys, isToolMsg t = true → isUserMsg u = true →
      preRepairMessages serialize request = xs ++ t :: u :: ys →
      [t, placeholderAssistant, u] <:+:
        (into_mistral serialize request model max_output_tokens).messages := by
  refine ⟨fixToolUser_no_adjacent _, rfl, ?_⟩
  intro xs t u ys ht hu hpre
  show [t, placeholderAssistant, u] <:+: fixToolUser (preRepairMessages serialize request)
  rw [hpre]
  exact fixToolUser_insert_infix xs t u ys ht hu

/-! ## Witness inputs -/

/-- A serialization function standing in for `serde_json::to_string` in
concrete scenarios. -/
def wSerialize : Json → String := fun _ => ""

/-- A concrete textual tool result. -/
def wToolResult : LanguageModelToolResult :=
  { tool_use_id := "call-1", content := .Text "result" }

/-- A concrete tool-use content part. -/
def wToolUse : LanguageModelToolUse := { id := "tu-1", name := "tool", input := .null }

/-- A concrete tool definition. -/
def wTool : LanguageModelRequestTool :=
  { name := "t", description := "d", input_schema := .null }

/-- A request whose single user message holds a tool result and then text,
so its pre-repair wire sequence is a `Tool` message directly followed by a
`User` message. -/
def wToolUserRequest : LanguageModelRequest :=
  { messages := [{ role := .User, content := [.ToolResult wToolResult, .Text "hi"] }],
    temperature := none, tools := [], tool_choice := none }

/-- The `Tool` wire message the tool result of `wToolUserRequest` becomes. -/
def wToolMsg : mistral.RequestMessage := .Tool "result" "call-1"

/-- The `User` wire message the text of `wToolUserRequest` becomes. -/
def wUserMsg : mistral.RequestMessage := .User (.Multipart [.Text "hi"])

theorem claim_C1_tool_user_invariant_witness :
    isToolMsg wToolMsg = true ∧ isUserMsg wUserMsg = true ∧
    preRepairMessages wSerialize wToolUserRequest = [] ++ wToolMsg :: wUserMsg :: [] ∧
    [wToolMsg, placeholderAssistant, wUserMsg] <:+:
      (into_mistral wSerialize wToolUserRequest "model" none).messages :=
  ⟨rfl, rfl, rfl,
    (claim_C1_tool_user_invariant wSerialize wToolUserRequest "model" none).2.2
      [] wToolMsg wUserMsg [] rfl rfl rfl⟩

/-! ## C2: tool-choice translation -/

/-- A request with an empty tool list and an explicit `None` tool choice. -/
def wNoneChoiceRequest : LanguageModelRequest :=
  { messages := [], temperature := none, tools := [], tool_choice := some .None }

/-- C2 counterexample: with an empty tool list and requested choice `None`,
the wire request still carries a `tool_choice` field (value `"none"`),
refuting "empty tool list ⇒ no tool_choice field regardless of requested
choice". -/
theorem claim_C2_counterexample :
    wNoneChoiceRequest.tools = [] ∧
    wNoneChoiceRequest.tool_choice = some .None ∧
    (into_mistral wSerialize wNoneChoiceRequest "model" none).tool_choice
      = some mistral.ToolChoice.None ∧
    ¬ (into_mistral wSerialize wNoneChoiceRequest "model" none).tool_choice = none :=
  ⟨rfl, rfl, rfl, by decide⟩

/-- C2 amended: a requested `None` choice always passes through (even with
an empty tool list); an empty tool list with any other requested choice (or
none) yields no tool_choice field; a non-empty tool list with no requested
choice defaults to `"auto"`; `Auto` and `Any` pass through when the tool
list is non-empty. -/
theorem claim_C2_tool_choice (serialize : Json → String) (request : LanguageModelRequest)
    (model : String) (max_output_tokens : Option Nat) :
    (request.tool_choice = some .None →
      (into_mistral serialize request model max_output_tokens).tool_choice
        = some mistral.ToolChoice.None) ∧
    (request.tools = [] → ¬ request.tool_choice = some .None →
      (into_mistral serialize request model max_output_tokens).tool_choice = none) ∧
    (¬ request.tools = [] → request.tool_choice = none →
      (into_mistral serialize request model max_output_tokens).tool_choice
        = some mistral.ToolChoice.Auto) ∧
    (¬ request.tools = [] → request.tool_choice = some .Auto →
      (into_mistral serialize request model max_output_tokens).tool_choice
        = some mistral.ToolChoice.Auto) ∧
    (¬ request.tools = [] → request.tool_choice = some .Any →
      (into_mistral serialize request model max_output_tokens).tool_choice
        = some mistral.ToolChoice.Any) := by
  have hv : (into_mistral serialize request model max_output_tokens).tool_choice
      = translateToolChoice request.tool_choice request.tools := rfl
  refine ⟨?_, ?_, ?_, ?_, ?_⟩ <;> rw [hv]
  · intro hc
    simp [translateToolChoice, hc]
  · intro hte hc
    have he : request.tools.isEmpty = true := List.isEmpty_iff.mpr hte
    simp [translateToolChoice, he, hc]
  · intro htn hc
    have he : request.tools.isEmpty = false := by
      cases hl : request.tools with
      | nil => exact absurd hl htn
      | cons a as => rfl
    simp [translateToolChoice, he, hc]
  · intro htn hc
    have he : request.tools.isEmpty = false := by
      cases hl : request.tools with
      | nil => exact absurd hl htn
      | cons a as => rfl
    simp [translateToolChoice, he, hc]
  · intro htn hc
    have he : request.tools.isEmpty = false := by
      cases hl : request.tools with
      | nil => exact absurd hl htn
      | cons a as => rfl
    simp [translateToolChoice, he, hc]

/-- A request with one tool and no requested tool choice. -/
def wOneToolRequest : LanguageModelRequest :=
  { messages := [], temperature := none, tools := [wTool], tool_choice := none }

theorem claim_C2_tool_choice_witness :
    ¬ wOneToolRequest.tools = [] ∧ wOneToolRequest.tool_choice = none ∧
    (into_mistral wSerialize wOneToolRequest "model" none).tool_choice
      = some mistral.ToolChoice.Auto ∧
    wNoneChoiceRequest.tool_choice = some .None ∧
    (into_mistral wSerialize wNoneChoiceRequest "model" none).tool_choice
      = some mistral.ToolChoice.None :=
  ⟨List.cons_ne_nil _ _, rfl,
    (claim_C2_tool_choice wSerialize wOneToolRequest "model" none).2.2.1
      (List.cons_ne_nil _ _) rfl,
    rfl,
    (claim_C2_tool_choice wSerialize wNoneChoiceRequest "model" none).1 rfl⟩

/-! ## C3 / C7: tool results and empty user turns -/

/-- The `Tool` wire message a tool-result content part becomes, `none` for
every other content kind. -/
def toolResultMessage : MessageContent → Option mistral.RequestMessage
  | .ToolResult tool_result =>
    some (.Tool (toolResultText tool_result) tool_result.tool_use_id)
  | _ => none

/-- The accumulated-content component of the user-turn fold on its own. -/
def userPartFold (mc : mistral.MessageContent) (content : MessageContent) :
    mistral.MessageContent :=
  match content with
  | .Text text => mc.push_part (.Text text)
  | .Image image => mc.push_part (.ImageUrl image.base64_url)
  | .Thinking text _ => mc.push_part (.Text text)
  | _ => mc

/-- The multipart content accumulated over a user message's parts. -/
def contentAccum (content : List MessageContent) : mistral.MessageContent :=
  content.foldl userPartFold mistral.MessageContent.empty

theorem userFold_split (parts : List MessageContent) :
    ∀ (mc : mistral.MessageContent) (msgs : List mistral.RequestMessage),
      parts.foldl userContentStep (mc, msgs)
        = (parts.foldl userPartFold mc, msgs ++ parts.filterMap toolResultMessage) := by
  induction parts with
  | nil => intro mc msgs; simp
  | cons c rest ih =>
    intro mc msgs
    cases c with
    | Text text => simp [userContentStep, userPartFold, toolResultMessage, ih]
    | Thinking text signature => simp [userContentStep, userPartFold, toolResultMessage, ih]
    | RedactedThinking data => simp [userContentStep, userPartFold, toolResultMessage, ih]
    | Image image => simp [userContentStep, userPartFold, toolResultMessage, ih]
    | ToolUse tool_use => simp [userContentStep, userPartFold, toolResultMessage, ih]
    | ToolResult tool_result =>
      simp [userContentStep, userPartFold, toolResultMessage, ih]

/-- C3 counterexample: for a user message holding a tool result and then
text, the final wire sequence places the `Tool` message (with the original
tool-use id) and the placeholder `Assistant` message *before* the `User`
message of that turn — the `Tool` message is not immediately following the
`User` message, refuting the claimed placement. -/
theorem claim_C3_counterexample :
    (into_mistral wSerialize wToolUserRequest "model" none).messages
      = [wToolMsg, placeholderAssistant, wUserMsg] ∧
    ¬ [wUserMsg, wToolMsg] <:+:
      (into_mistral wSerialize wToolUserRequest "model" none).messages ∧
    ¬ [wUserMsg, placeholderAssistant, wToolMsg] <:+:
      (into_mistral wSerialize wToolUserRequest "model" none).messages :=
  ⟨rfl, by decide, by decide⟩

/-- C3 amended: every tool-result content part of a user-role message is
emitted as a distinct `Tool` wire message whose `tool_call_id` is the
original tool-use id and whose content is the tool result's text (or the
fixed image placeholder); these `Tool` messages appear in content order
immediately *preceding* (not following) the `User` wire message built for
that turn, which is appended after all content parts are processed. -/
theorem claim_C3_tool_result_messages (parts : List MessageContent) :
    userTurn parts = parts.filterMap toolResultMessage ++
      (if (contentAccum parts).isEmptyPlain then []
       else [.User (contentAccum parts)]) := by
  show (if ((parts.foldl userContentStep (mistral.MessageContent.empty, [])).1).isEmptyPlain
      then (parts.foldl userContentStep (mistral.MessageContent.empty, [])).2
      else (parts.foldl userContentStep (mistral.MessageContent.empty, [])).2
        ++ [.User (parts.foldl userContentStep (mistral.MessageContent.empty, [])).1])
    = parts.filterMap toolResultMessage ++
      (if (contentAccum parts).isEmptyPlain then []
       else [.User (contentAccum parts)])
  rw [userFold_split parts mistral.MessageContent.empty []]
  show (if (contentAccum parts).isEmptyPlain
      then [] ++ parts.filterMap toolResultMessage
      else ([] ++ parts.filterMap toolResultMessage) ++ [.User (contentAccum parts)])
    = _
  cases h : (contentAccum parts).isEmptyPlain with
  | true => simp
  | false => simp

/-- C7: a user-role message whose content parts leave the accumulated
multipart content empty produces no `User` wire message; in particular a
user message whose only content is a tool-use part translates to zero wire
messages, also through `into_mistral` as a whole. -/
theorem claim_C7_empty_user_turn :
    (∀ parts : List MessageContent, (contentAccum parts).isEmptyPlain = true →
      ∀ msg ∈ userTurn parts, isUserMsg msg = false) ∧
    (∀ (tool_use : LanguageModelToolUse), userTurn [.ToolUse tool_use] = []) ∧
    (∀ (serialize : Json → String) (model : String) (max_output_tokens : Option Nat)
        (temperature : Option Rat) (tools : List LanguageModelRequestTool)
        (tool_choice : Option LanguageModelToolChoice)
        (tool_use : LanguageModelToolUse),
      (into_mistral serialize
        { messages := [{ role := .User, content := [.ToolUse tool_use] }],
          temperature := temperature, tools := tools, tool_choice := tool_choice }
        model max_output_tokens).messages = []) := by
  refine ⟨?_, ?_, ?_⟩
  · intro parts hempty msg hmem
    rw [claim_C3_tool_result_messages parts, hempty] at hmem
    simp only [if_pos, List.append_nil] at hmem
    rw [List.mem_filterMap] at hmem
    obtain ⟨part, _, hpart⟩ := hmem
    cases part with
    | ToolResult tool_result =>
      have : msg = .Tool (toolResultText tool_result) tool_result.tool_use_id := by
        have h := hpart
        simp only [toolResultMessage, Option.some.injEq] at h
        exact h.symm
      rw [this]
      rfl
    | Text text => simp [toolResultMessage] at hpart
    | Thinking text signature => simp [toolResultMessage] at hpart
    | RedactedThinking data => simp [toolResultMessage] at hpart
    | Image image => simp [toolResultMessage] at hpart
    | ToolUse tool_use => simp [toolResultMessage] at hpart
  · intro tool_use
    rfl
  · intro serialize model max_output_tokens temperature tools tool_choice tool_use
    rfl

theorem claim_C7_empty_user_turn_witness :
    (contentAccum [MessageContent.ToolResult wToolResult]).isEmptyPlain = true ∧
    wToolMsg ∈ userTurn [MessageContent.ToolResult wToolResult] ∧
    isUserMsg wToolMsg = false ∧
    userTurn [MessageContent.ToolUse wToolUse] = [] ∧
    (into_mistral wSerialize
      { messages := [{ role := .User, content := [.ToolUse wToolUse] }],
        temperature := none, tools := [], tool_choice := none }
      "model" none).messages = [] :=
  ⟨rfl, by decide,
    claim_C7_empty_user_turn.1 [MessageContent.ToolResult wToolResult] rfl wToolMsg (by decide),
    claim_C7_empty_user_turn.2.1 wToolUse,
    claim_C7_empty_user_turn.2.2 wSerialize "model" none none [] none wToolUse⟩

/-! ## C4: fragment accumulation across chunks -/

/-- C4: when one tool call's id/name arrive on the first fragment and its
argument text is split across three fragments carrying the same index, the
fragment chunks emit no events at all, and the drain at the `tool_calls`
finish signal emits the tool-use event whose `raw_input` is the
concatenation of the three fragments in arrival order. -/
theorem claim_C4_fragment_concatenation (parse : String → Except String Json)
    (index : Nat) (tool_id tool_name a1 a2 a3 : String) (v : Json)
    (hid : tool_id.isEmpty = false) (hname : tool_name.isEmpty = false)
    (hp : parse (a1 ++ a2 ++ a3) = .ok v) :
    map_stream parse MistralEventMapper.new
        [fragmentChunk index (some tool_id) (some tool_name) (some a1),
         fragmentChunk index none none (some a2),
         fragmentChunk index none none (some a3)] = [] ∧
    map_stream parse MistralEventMapper.new
        [fragmentChunk index (some tool_id) (some tool_name) (some a1),
         fragmentChunk index none none (some a2),
         fragmentChunk index none none (some a3),
         finishChunk "tool_calls"]
      = [.ok (.ToolUse { id := tool_id, name := tool_name, is_input_complete := true,
                         input := v, raw_input := a1 ++ a2 ++ a3 }),
         .ok (.Stop .ToolUse)] := by
  constructor
  · simp [map_stream, MistralEventMapper.map_event, fragmentChunk,
      MistralEventMapper.new, updateEntry, applyFragment, RawToolCall.default]
  · simp [map_stream, MistralEventMapper.map_event, fragmentChunk, finishChunk,
      MistralEventMapper.new, updateEntry, applyFragment, RawToolCall.default,
      MistralEventMapper.process_tool_calls, drainEntry, String.empty_append,
      hid, hname, hp]

/-- A parse function standing in for `serde_json` that accepts exactly the
string "abc". -/
def wParseAbc : String → Except String Json :=
  fun s => if s = "abc" then .ok .null else .error "invalid"

theorem claim_C4_fragment_concatenation_witness :
    ("t1" : String).isEmpty = false ∧ ("tool" : String).isEmpty = false ∧
    wParseAbc ("a" ++ "b" ++ "c") = .ok .null ∧
    map_stream wParseAbc MistralEventMapper.new
        [fragmentChunk 0 (some "t1") (some "tool") (some "a"),
         fragmentChunk 0 none none (some "b"),
         fragmentChunk 0 none none (some "c")] = [] ∧
    map_stream wParseAbc MistralEventMapper.new
        [fragmentChunk 0 (some "t1") (some "tool") (some "a"),
         fragmentChunk 0 none none (some "b"),
         fragmentChunk 0 none none (some "c"),
         finishChunk "tool_calls"]
      = [.ok (.ToolUse { id := "t1", name := "tool", is_input_complete := true,
                         input := .null, raw_input := "a" ++ "b" ++ "c" }),
         .ok (.Stop .ToolUse)] :=
  ⟨rfl, rfl, rfl,
    (claim_C4_fragment_concatenation wParseAbc 0 "t1" "tool" "a" "b" "c" .null
      rfl rfl rfl).1,
    (claim_C4_fragment_concatenation wParseAbc 0 "t1" "tool" "a" "b" "c" .null
      rfl rfl rfl).2⟩

/-! ## C5: draining the accumulator on a tool_calls finish -/

/-- C5: draining on a `tool_calls` finish empties the accumulator and
yields exactly one result per entry, in place: an error result (and no
tool-use event) for an entry with empty id or name, a complete tool-use
event for an entry whose arguments parse, and a non-fatal parse-error event
carrying the raw string and the diagnostic for an entry whose arguments do
not parse; the `tool_calls` finish signal appends a stream-stop(tool-use)
event after the drained results. -/
theorem claim_C5_drain (parse : String → Except String Json) (m : MistralEventMapper) :
    (m.process_tool_calls parse).1.tool_calls_by_index = [] ∧
    (m.process_tool_calls parse).2.length = m.tool_calls_by_index.length ∧
    (∀ (k : Nat) (index : Nat) (entry : RawToolCall),
      m.tool_calls_by_index[k]? = some (index, entry) →
      ((entry.id.isEmpty || entry.name.isEmpty) = true →
        (m.process_tool_calls parse).2[k]?
          = some (.error { message := "Received incomplete tool call: missing id or name" })) ∧
      (∀ v, (entry.id.isEmpty || entry.name.isEmpty) = false →
        parse entry.arguments = .ok v →
        (m.process_tool_calls parse).2[k]?
          = some (.ok (.ToolUse { id := entry.id, name := entry.name,
                                  is_input_complete := true, input := v,
                                  raw_input := entry.arguments }))) ∧
      (∀ e, (entry.id.isEmpty || entry.name.isEmpty) = false →
        parse entry.arguments = .error e →
        (m.process_tool_calls parse).2[k]?
          = some (.ok (.ToolUseJsonParseError entry.id entry.name entry.arguments e)))) ∧
    (m.map_event parse (finishChunk "tool_calls")).2
      = (m.process_tool_calls parse).2 ++ [.ok (.Stop .ToolUse)] := by
  refine ⟨rfl, ?_, ?_, ?_⟩
  · exact List.length_map m.tool_calls_by_index _
  · intro k index entry hk
    have hg : (m.process_tool_calls parse).2[k]?
        = (m.tool_calls_by_index[k]?).map (fun (p : Nat × RawToolCall) =>
            drainEntry parse p.2) :=
      List.getElem?_map _ m.tool_calls_by_index k
    rw [hk] at hg
    refine ⟨?_, ?_, ?_⟩
    · intro hempty
      rw [hg, Option.map_some']
      show some (drainEntry parse entry) = _
      rw [drainEntry, if_pos hempty]
    · intro v hnonempty hparse
      rw [hg, Option.map_some']
      show some (drainEntry parse entry) = _
      rw [drainEntry, if_neg (by simp [hnonempty]), hparse]
    · intro e hnonempty hparse
      rw [hg, Option.map_some']
      show some (drainEntry parse entry) = _
      rw [drainEntry, if_neg (by simp [hnonempty]), hparse]
  · simp [MistralEventMapper.map_event, finishChunk]

/-- A parse function standing in for `serde_json` that accepts exactly the
string "args" with diagnostic "oops" otherwise. -/
def wParseArgs : String → Except String Json :=
  fun s => if s = "args" then .ok .null else .error "oops"

/-- A mapper state holding one incomplete entry, one entry with parsing
arguments, and one entry with non-parsing arguments. -/
def wDrainMapper : MistralEventMapper :=
  { tool_calls_by_index :=
      [(0, { id := "", name := "n", arguments := "x" }),
       (1, { id := "id", name := "nm", arguments := "args" }),
       (2, { id := "i2", name := "n2", arguments := "bad" })] }

theorem claim_C5_drain_witness :
    (wDrainMapper.process_tool_calls wParseArgs).1.tool_calls_by_index = [] ∧
    (wDrainMapper.process_tool_calls wParseArgs).2[0]?
      = some (.error { message := "Received incomplete tool call: missing id or name" }) ∧
    (wDrainMapper.process_tool_calls wParseArgs).2[1]?
      = some (.ok (.ToolUse { id := "id", name := "nm", is_input_complete := true,
                              input := .null, raw_input := "args" })) ∧
    (wDrainMapper.process_tool_calls wParseArgs).2[2]?
      = some (.ok (.ToolUseJsonParseError "i2" "n2" "bad" "oops")) ∧
    (wDrainMapper.map_event wParseArgs (finishChunk "tool_calls")).2
      = (wDrainMapper.process_tool_calls wParseArgs).2 ++ [.ok (.Stop .ToolUse)] :=
  ⟨(claim_C5_drain wParseArgs wDrainMapper).1,
    ((claim_C5_drain wParseArgs wDrainMapper).2.2.1 0 0
      { id := "", name := "n", arguments := "x" } rfl).1 rfl,
    (((claim_C5_drain wParseArgs wDrainMapper).2.2.1 1 1
      { id := "id", name := "nm", arguments := "args" } rfl).2.1 .null rfl rfl),
    (((claim_C5_drain wParseArgs wDrainMapper).2.2.1 2 2
      { id := "i2", name := "n2", arguments := "bad" } rfl).2.2 "oops" rfl rfl),
    (claim_C5_drain wParseArgs wDrainMapper).2.2.2⟩

/-! ## C6: finish reasons "stop" and unexpected values -/

/-- C6: a finish-signal chunk with reason `"stop"` and no pending tool
calls yields exactly one stream-stop(end-of-turn) event and nothing else,
and any finish reason other than `"stop"` and `"tool_calls"` likewise
yields a stream-stop(end-of-turn) event rather than an error. -/
theorem claim_C6_finish_reasons (parse : String → Except String Json)
    (m : MistralEventMapper) (_pending : m.tool_calls_by_index = []) :
    m.map_event parse (finishChunk "stop") = (m, [.ok (.Stop .EndTurn)]) ∧
    ∀ reason, ¬ reason = "stop" → ¬ reason = "tool_calls" →
      m.map_event parse (finishChunk reason) = (m, [.ok (.Stop .EndTurn)]) := by
  constructor
  · simp [MistralEventMapper.map_event, finishChunk]
  · intro reason h1 h2
    simp [MistralEventMapper.map_event, finishChunk, h1, h2]

theorem claim_C6_finish_reasons_witness :
    MistralEventMapper.new.tool_calls_by_index = [] ∧
    MistralEventMapper.new.map_event wParseAbc (finishChunk "stop")
      = (MistralEventMapper.new, [.ok (.Stop .EndTurn)]) ∧
    MistralEventMapper.new.map_event wParseAbc (finishChunk "length")
      = (MistralEventMapper.new, [.ok (.Stop .EndTurn)]) :=
  ⟨rfl,
    (claim_C6_finish_reasons wParseAbc MistralEventMapper.new rfl).1,
    (claim_C6_finish_reasons wParseAbc MistralEventMapper.new rfl).2 "length"
      (by decide) (by decide)⟩

/-! ## C9 / C10: chunks with no choices -/

/-- C9: a decoded chunk whose choices array is empty maps to exactly one
event — the "no choices" error — and the overall event sequence simply
continues with the following chunks, from the same mapper state. -/
theorem claim_C9_no_choices (parse : String → Except String Json)
    (m : MistralEventMapper) (chunk : mistral.StreamResponse)
    (h : chunk.choices = []) (rest : List mistral.StreamResponse) :
    m.map_event parse chunk
      = (m, [.error { message := "Response contained no choices" }]) ∧
    map_stream parse m (chunk :: rest)
      = .error { message := "Response contained no choices" } :: map_stream parse m rest := by
  have he : m.map_event parse chunk
      = (m, [.error { message := "Response contained no choices" }]) := by
    simp [MistralEventMapper.map_event, h]
  exact ⟨he, by simp [map_stream, he]⟩

/-- A chunk with no choice entries (usage present, which the source never
reaches for such a chunk). -/
def wNoChoicesChunk : mistral.StreamResponse :=
  { choices := [], usage := some { prompt_tokens := 1, completion_tokens := 2 } }

theorem claim_C9_no_choices_witness :
    wNoChoicesChunk.choices = [] ∧
    wDrainMapper.map_event wParseArgs wNoChoicesChunk
      = (wDrainMapper, [.error { message := "Response contained no choices" }]) ∧
    map_stream wParseArgs wDrainMapper [wNoChoicesChunk, finishChunk "stop"]
      = .error { message := "Response contained no choices" }
          :: map_stream wParseArgs wDrainMapper [finishChunk "stop"] :=
  ⟨rfl,
    (claim_C9_no_choices wParseArgs wDrainMapper wNoChoicesChunk rfl [finishChunk "stop"]).1,
    (claim_C9_no_choices wParseArgs wDrainMapper wNoChoicesChunk rfl [finishChunk "stop"]).2⟩

/-- C10: a chunk whose choices array is empty leaves the tool-call
accumulator exactly as it was — pending fragments from earlier chunks are
neither lost nor modified. -/
theorem claim_C10_no_choices_frame (parse : String → Except String Json)
    (m : MistralEventMapper) (chunk : mistral.StreamResponse)
    (h : chunk.choices = []) :
    (m.map_event parse chunk).1 = m ∧
    (m.map_event parse chunk).1.tool_calls_by_index = m.tool_calls_by_index := by
  have he : (m.map_event parse chunk).1 = m := by
    simp [MistralEventMapper.map_event, h]
  exact ⟨he, by rw [he]⟩

theorem claim_C10_no_choices_frame_witness :
    wNoChoicesChunk.choices = [] ∧
    (wDrainMapper.map_event wParseArgs wNoChoicesChunk).1.tool_calls_by_index
      = wDrainMapper.tool_calls_by_index :=
  ⟨rfl, (claim_C10_no_choices_frame wParseArgs wDrainMapper wNoChoicesChunk rfl).2⟩
